import Mathlib

/-!
Verification of the EDA helper toolkit (`src/eda/soporte_preprocesamiento.py`).

The development shallowly embeds the pandas dataframes manipulated by the
toolkit and the three routines the claims are about:

* `exploracion_datos` — the dataset profiler (source lines 28–80);
* `Visualizador.separar_dataframes` (lines 113–121) and
  `Visualizador.analisis_temporal` (lines 227–274) — the dtype splitter and
  the temporal helper's in-place column mutation;
* `detectar_orden_cat_bina` (lines 343–355) — the chi-squared association
  analyzer, together with models of `pd.crosstab` and
  `scipy.stats.chi2_contingency` (the library routines it delegates to).

Machine floats are embedded as exact rationals; the chi-squared survival
function `scipy.stats.chi2.sf`, a transcendental library routine, is a
parameter `sf` of the model, so every theorem below holds for an arbitrary
survival function.  Output (`print`/`display` calls, which the notebook
code uses for all reporting) is embedded as a list of `Event`s; Python
exceptions are embedded as `PyError` values that stop the event stream,
mirroring how an uncaught exception aborts the remainder of a call.
-/

namespace EDA

/-- A scalar cell value of a dataframe: a number (Python ints/floats,
embedded as exact rationals) or a string.  A missing cell (`NaN`) is
`Option.none` at the column level. -/
inductive Value where
  | num (q : ℚ)
  | str (s : String)
deriving DecidableEq, Repr

/-- Pandas column dtypes, at the granularity the source distinguishes:
`select_dtypes(include=np.number)` selects exactly `numeric`;
`select_dtypes(include="O")` selects exactly `object`; `bool`, datetime and
categorical dtypes are selected by neither (numpy's `bool_` is not a subtype
of `np.number`, and a pandas `Categorical` is its own dtype, not `object`).
`pd.Categorical(..., categories, ordered=True)` produces
`categorical true categories`. -/
inductive Dtype where
  | numeric
  | object
  | boolean
  | datetime
  | categorical (ordered : Bool) (categories : List Value)
deriving DecidableEq, Repr

/-- A named, typed pandas column; `values` lists the cells top to bottom,
`none` standing for `NaN`. -/
structure Column where
  name : String
  dtype : Dtype
  values : List (Option Value)
deriving DecidableEq, Repr

/-- A pandas `DataFrame`: an ordered list of named columns.  The spec's
invariant that names are unique, and pandas' invariant that all columns
have the same length, are carried as hypotheses where a theorem needs
them. -/
structure DataFrame where
  cols : List Column
deriving DecidableEq, Repr

/-- Python exceptions the embedded routines can raise. -/
inductive PyError where
  | keyError (name : String)
  | valueError (msg : String)
deriving DecidableEq, Repr

/-- `df[name]`: the values of the first column named `name`, or `none` when
the lookup would raise `KeyError` (column names are unique per the spec, so
"first" is immaterial). -/
def lookupCol (df : DataFrame) (name : String) : Option (List (Option Value)) :=
  (df.cols.find? (fun c => c.name == name)).map Column.values

/-- `df.shape[0]`: the row count (all columns of a well-formed frame have
the same length; an empty frame has zero rows). -/
def nRows (df : DataFrame) : Nat :=
  match df.cols with
  | [] => 0
  | c :: _ => c.values.length

/-- Row `i` of the frame, as the tuple of its cells across columns
(in column order, as `DataFrame.duplicated` compares rows). -/
def rowTuple (df : DataFrame) (i : Nat) : List (Option Value) :=
  df.cols.map (fun c => c.values.getD i none)

/-- `df.duplicated().sum()`: the number of rows equal (across all columns)
to some earlier row. -/
def duplicatedCount (df : DataFrame) : Nat :=
  (List.range (nRows df)).countP
    (fun i => (List.range i).any (fun j => decide (rowTuple df j = rowTuple df i)))

/-- `column.isnull().sum()`: the number of missing cells of one column. -/
def nullCount (c : Column) : Nat :=
  c.values.countP (fun v => v.isNone)

/-- `column.nunique()`: the number of distinct non-missing values. -/
def nuniqueCol (c : Column) : Nat :=
  (c.values.filterMap id).dedup.length

/-- The profiler's null report (source line 69–70):
`dataframe.isnull().sum()` filtered to the columns with at least one null,
divided by `df.shape[0]`, times 100, sorted descending on the percentage
(`sort_values(by=..., ascending=False)`). -/
def nullReport (df : DataFrame) : List (String × ℚ) :=
  ((df.cols.filter (fun c => 0 < nullCount c)).map
      (fun c => (c.name, ((nullCount c : ℚ) / (nRows df : ℚ)) * 100))).mergeSort
    (fun a b => decide (b.2 ≤ a.2))

/-- Summary row of `describe()` for one numeric column: the non-null count
and the mean (pandas prints `NaN` for the mean of an empty column, embedded
as `none`).  The remaining `describe()` fields (std, quartiles) are real
numbers produced for display only; no claim refers to them and they are
omitted from the embedding of the displayed table. -/
structure NumSummary where
  count : Nat
  mean : Option ℚ
deriving DecidableEq, Repr

/-- Summary row of `describe(include="O")` for one object column: non-null
count and number of distinct values (`top`/`freq` are display-only and
omitted, as for `NumSummary`). -/
structure CatSummary where
  count : Nat
  unique : Nat
deriving DecidableEq, Repr

/-- Numeric interpretation of a cell, for column means. -/
def cellNum (v : Value) : ℚ :=
  match v with
  | .num q => q
  | .str _ => 0

/-- The `describe()` summary of a single column. -/
def numSummaryOf (c : Column) : NumSummary :=
  let present := c.values.filterMap id
  { count := present.length
    mean := if present.length = 0 then none
            else some ((present.map cellNum).sum / (present.length : ℚ)) }

/-- The `describe(include="O")` summary of a single column. -/
def catSummaryOf (c : Column) : CatSummary :=
  let present := c.values.filterMap id
  { count := present.length, unique := present.dedup.length }

/-- The numeric-dtype columns of a frame, in frame order. -/
def numericCols (df : DataFrame) : List Column :=
  df.cols.filter (fun c => c.dtype == Dtype.numeric)

/-- The object-dtype columns of a frame, in frame order. -/
def objectCols (df : DataFrame) : List Column :=
  df.cols.filter (fun c => c.dtype == Dtype.object)

/-- `df.describe().T` (source line 60).  Pandas describes the numeric
columns when any exist, falls back to all columns otherwise, and raises
`ValueError` on a frame with no columns at all. -/
def describeDefault (df : DataFrame) : Except PyError (List (String × NumSummary)) :=
  if df.cols.isEmpty then
    .error (.valueError "Cannot describe a DataFrame without columns")
  else
    let sel := if (numericCols df).isEmpty then df.cols else numericCols df
    .ok (sel.map (fun c => (c.name, numSummaryOf c)))

/-- `df.describe(include="O").T` (source line 64).  Pandas raises
`ValueError` ("No objects to concatenate") when the frame has no
object-dtype column, for any row count. -/
def describeObject (df : DataFrame) : Except PyError (List (String × CatSummary)) :=
  let sel := objectCols df
  if sel.isEmpty then
    .error (.valueError "No objects to concatenate")
  else
    .ok (sel.map (fun c => (c.name, catSummaryOf c)))

/-- Everything `exploracion_datos` prints/displays, in print order. -/
structure ProfileReport where
  filas : Nat
  columnas : Nat
  duplicados : Nat
  describeNum : List (String × NumSummary)
  describeCat : List (String × CatSummary)
  nulos : List (String × ℚ)
  uniqueCounts : Option (List (String × Nat))
deriving DecidableEq, Repr

/-- The dataset profiler `exploracion_datos` (source lines 28–80): prints
the shape, the duplicate count, `describe().T`, `describe(include="O").T`,
the null-percentage report, and, when the `nunique` flag is set, the
per-column distinct-value counts (the `info` flag only re-displays the
structural summary and adds nothing the report does not already carry).
An exception raised by either `describe` call aborts the report. -/
def exploracion_datos (df : DataFrame) (nunique : Bool) : Except PyError ProfileReport :=
  match describeDefault df with
  | .error e => .error e
  | .ok dn =>
    match describeObject df with
    | .error e => .error e
    | .ok dc =>
      .ok
        { filas := nRows df
          columnas := df.cols.length
          duplicados := duplicatedCount df
          describeNum := dn
          describeCat := dc
          nulos := nullReport df
          uniqueCounts :=
            if nunique then some (df.cols.map (fun c => (c.name, nuniqueCol c))) else none }

/-! ### The `Visualizador` methods the claims refer to -/

/-- `Visualizador.separar_dataframes` (source lines 113–121):
`(df.select_dtypes(include=np.number), df.select_dtypes(include="O"))`.
`select_dtypes` keeps the selected columns in frame order. -/
def separar_dataframes (df : DataFrame) : DataFrame × DataFrame :=
  (⟨numericCols df⟩, ⟨objectCols df⟩)

/-- The cell transformation performed by
`pd.Categorical(values, categories=order, ordered=True)`: a value outside
the supplied category list — and any already-missing cell — becomes `NaN`. -/
def toCategorical (order : List Value) (v : Option Value) : Option Value :=
  match v with
  | some x => if x ∈ order then some x else none
  | none => none

/-- The dataframe effect of `Visualizador.analisis_temporal` (source lines
227–274).  Line 252 reads `self.dataframe[var_temporal]` (raising
`KeyError` when the column is absent) and reassigns it in place as an
ordered categorical restricted to `order`; the rest of the method only
draws (`lineplot`, `axhline`, axis labels) and computes a display-only mean,
leaving the frame untouched.  The returned frame is the caller's dataframe
after the method runs. -/
def analisis_temporal (df : DataFrame) (var_temporal : String) (order : List Value) :
    Except PyError DataFrame :=
  if df.cols.any (fun c => c.name == var_temporal) then
    .ok ⟨df.cols.map (fun c =>
      if c.name == var_temporal then
        { name := c.name
          dtype := .categorical true order
          values := c.values.map (toCategorical order) }
      else c)⟩
  else
    .error (.keyError var_temporal)

/-! ### The association analyzer `detectar_orden_cat_bina`

`pd.crosstab(df[cat], df[resp])` cross-tabulates the two columns over the
rows in which both cells are present (crosstab drops `NaN` keys), its row
and column labels being the distinct observed values of each side.
`scipy.stats.chi2_contingency` is embedded from its source: reject an
empty observed array, reject a zero expected frequency, compute
`dof = size − (rows + cols) + 1`, short-circuit `dof = 0` to
`(chi2, p) = (0, 1)`, apply the Yates continuity correction when
`dof = 1`, and otherwise return the Pearson statistic with
`p = chi2.sf(stat, dof)` — the survival function being the model
parameter `sf`. -/

/-- The (categorical value, response value) pairs of the rows in which both
cells are present — the rows `pd.crosstab` tabulates. -/
def pairs (xs ys : List (Option Value)) : List (Value × Value) :=
  (xs.zip ys).filterMap (fun p =>
    match p with
    | (some a, some b) => some (a, b)
    | _ => none)

/-- A contingency table: row labels, column labels, and the count matrix
(`cells[i][j]` counts the pairs equal to `(rowLabels[i], colLabels[j])`).
Labels are listed in first-appearance order; pandas displays them sorted,
but no claim depends on the label order. -/
structure Crosstab where
  rowLabels : List Value
  colLabels : List Value
  cells : List (List Nat)
deriving DecidableEq, Repr

/-- `pd.crosstab(xs, ys)` over the paired columns `xs`, `ys`. -/
def crosstab (xs ys : List (Option Value)) : Crosstab :=
  let ps := pairs xs ys
  let R := (ps.map Prod.fst).dedup
  let C := (ps.map Prod.snd).dedup
  { rowLabels := R
    colLabels := C
    cells := R.map (fun a => C.map (fun b => ps.countP (fun p => decide (p = (a, b))))) }

/-- Column `j`'s marginal total of the observed matrix. -/
def colTotal (ct : Crosstab) (j : Nat) : Nat :=
  (ct.cells.map (fun r => r.getD j 0)).sum

/-- The grand total of the observed matrix. -/
def grandTotal (ct : Crosstab) : Nat :=
  (ct.cells.map List.sum).sum

/-- `scipy.stats.contingency.expected_freq(observed)`:
`expected[i][j] = rowTotal_i * colTotal_j / grandTotal` (exact rational in
the embedding; numpy computes the same quotient in floats). -/
def expectedFreq (ct : Crosstab) : List (List ℚ) :=
  ct.cells.map (fun r =>
    (List.range ct.colLabels.length).map (fun j =>
      ((r.sum * colTotal ct j : ℕ) : ℚ) / (grandTotal ct : ℚ)))

/-- Yates continuity adjustment of one observed cell (scipy, `dof = 1`
case): move `obs` toward `exp` by `min(0.5, |exp − obs|)`. -/
def yatesAdjust (obs exp : ℚ) : ℚ :=
  if obs < exp then obs + min (1/2) (exp - obs)
  else if exp < obs then obs - min (1/2) (obs - exp)
  else obs

/-- The Pearson statistic `Σ (obs − exp)² / exp` over two equally-shaped
matrices (`power_divergence` with the default lambda). -/
def pearsonStat (obs exp : List (List ℚ)) : ℚ :=
  ((obs.zip exp).map (fun rc =>
    ((rc.1.zip rc.2).map (fun oe => (oe.1 - oe.2) ^ 2 / oe.2)).sum)).sum

/-- The tuple `chi2_contingency` returns. -/
structure Chi2Result where
  chi2 : ℚ
  p : ℚ
  dof : Nat
  expected : List (List ℚ)
deriving DecidableEq, Repr

/-- The degrees of freedom scipy computes,
`expected.size - sum(expected.shape) + expected.ndim - 1`, which for an
`m × n` table with `m, n ≥ 1` equals `(m − 1) * (n − 1)`. -/
def dofOf (ct : Crosstab) : Nat :=
  (ct.rowLabels.length - 1) * (ct.colLabels.length - 1)

/-- The observed matrix scipy feeds to `power_divergence`: cast to floats,
with the Yates continuity correction (each observation moved toward its
expectation by at most ½) applied exactly when `dof = 1`. -/
def obsAdjusted (ct : Crosstab) : List (List ℚ) :=
  if dofOf ct = 1 then
    ((ct.cells.map (fun r => r.map (fun n => (n : ℚ)))).zip (expectedFreq ct)).map
      (fun rc => (rc.1.zip rc.2).map (fun oe => yatesAdjust oe.1 oe.2))
  else ct.cells.map (fun r => r.map (fun n => (n : ℚ)))

/-- The chi-squared statistic of the contingency test. -/
def chi2stat (ct : Crosstab) : ℚ :=
  pearsonStat (obsAdjusted ct) (expectedFreq ct)

/-- `scipy.stats.chi2_contingency(observed)` with the default continuity
correction, parameterized by the chi-squared survival function `sf`
(`scipy.stats.chi2.sf`): reject an empty observed array, reject a zero
expected frequency, short-circuit `dof = 0` to `(chi2, p) = (0, 1)`, and
otherwise return the (possibly Yates-corrected) Pearson statistic with
`p = sf(stat, dof)`.  Cell counts are naturals, so scipy's negative-entry
check cannot fire and is omitted. -/
def chi2_contingency (sf : ℚ → Nat → ℚ) (ct : Crosstab) : Except PyError Chi2Result :=
  if ct.rowLabels.length * ct.colLabels.length = 0 then
    .error (.valueError "No data; observed has size 0.")
  else if (expectedFreq ct).any (fun r => r.any (fun e => decide (e = 0))) then
    .error (.valueError "The internally computed table of expected frequencies has a zero element.")
  else if dofOf ct = 0 then
    .ok { chi2 := 0, p := 1, dof := 0, expected := expectedFreq ct }
  else
    .ok { chi2 := chi2stat ct, p := sf (chi2stat ct) (dofOf ct), dof := dofOf ct,
          expected := expectedFreq ct }

/-- Round half to even, as `numpy.round` / `DataFrame.round()` do. -/
def roundHalfEven (q : ℚ) : ℤ :=
  if q - ⌊q⌋ < 1/2 then ⌊q⌋
  else if (1:ℚ)/2 < q - ⌊q⌋ then ⌊q⌋ + 1
  else if ⌊q⌋ % 2 = 0 then ⌊q⌋ else ⌊q⌋ + 1

/-- `expected.round()` applied cellwise. -/
def roundMatrix (m : List (List ℚ)) : List (List ℤ) :=
  m.map (fun r => r.map roundHalfEven)

/-- One `print`/`display` emission of `detectar_orden_cat_bina`, in source
order: the "Estamos evaluando la variable …" banner, the displayed observed
table, the significant / not-significant verdict with its p-value, the
displayed rounded expected table, and the dashed separator.  `cannotTest`
embeds the "insufficient category variation to test" outcome the spec
mandates; the source has no branch producing it. -/
inductive Event where
  | evaluating (name : String)
  | showCrosstab (ct : Crosstab)
  | sigDiff (name : String) (p : ℚ)
  | showExpectedRounded (tbl : List (List ℤ))
  | noSigDiff (name : String) (p : ℚ)
  | separator
  | cannotTest (name : String)
deriving DecidableEq, Repr

/-- One iteration of the analyzer's loop (source lines 344–355) for the
column `categoria`: print the banner, look up `df[categoria]` then
`df[var_respuesta]` (each raising `KeyError` on a missing name, after the
banner is already printed), display the crosstab, run `chi2_contingency`,
and report the verdict — displaying the rounded expected table exactly in
the significant branch.  Returns the events emitted and the exception, if
any, that escapes the iteration. -/
def processColumn (sf : ℚ → Nat → ℚ) (df : DataFrame) (var_respuesta : String)
    (sig_level : ℚ) (categoria : String) : List Event × Option PyError :=
  match lookupCol df categoria with
  | none => ([.evaluating categoria], some (.keyError categoria))
  | some xs =>
    match lookupCol df var_respuesta with
    | none => ([.evaluating categoria], some (.keyError var_respuesta))
    | some ys =>
      let ct := crosstab xs ys
      match chi2_contingency sf ct with
      | .error e => ([.evaluating categoria, .showCrosstab ct], some e)
      | .ok r =>
        if r.p < sig_level then
          ([.evaluating categoria, .showCrosstab ct, .sigDiff categoria r.p,
            .showExpectedRounded (roundMatrix r.expected), .separator], none)
        else
          ([.evaluating categoria, .showCrosstab ct, .noSigDiff categoria r.p,
            .separator], none)

/-- `detectar_orden_cat_bina(df, lista_cat, var_respuesta, sig_level)`
(source lines 343–355): the `for` loop over `lista_cat`.  An exception in
one iteration propagates out of the call, keeping the output already
emitted and dropping every remaining column. -/
def detectar_orden_cat_bina (sf : ℚ → Nat → ℚ) (df : DataFrame) (lista_cat : List String)
    (var_respuesta : String) (sig_level : ℚ) : List Event × Option PyError :=
  match lista_cat with
  | [] => ([], none)
  | c :: rest =>
    match processColumn sf df var_respuesta sig_level c with
    | (evs, some e) => (evs, some e)
    | (evs, none) =>
      let r := detectar_orden_cat_bina sf df rest var_respuesta sig_level
      (evs ++ r.1, r.2)

/-! ### Concrete example data

Small frames used to instantiate the general theorems and to exhibit
concrete behaviours of the embedded routines. -/

/-- A fixed stand-in survival function for concrete computations; the
general theorems hold for an arbitrary `sf`. -/
def sfW : ℚ → Nat → ℚ := fun _ _ => 1/1000

/-- Shorthand for a present string cell. -/
def vS (s : String) : Option Value := some (.str s)

/-- Shorthand for a present numeric cell. -/
def vN (q : ℚ) : Option Value := some (.num q)

/-- Four-row frame whose categorical column has a single observed value
and whose binary response takes both values. -/
def dfSingleCat : DataFrame :=
  ⟨[⟨"genero", .object, [vS "M", vS "M", vS "M", vS "M"]⟩,
    ⟨"compra", .numeric, [vN 1, vN 0, vN 1, vN 0]⟩]⟩

/-- The categorical column of `dfSingleCat`. -/
def xsSingle : List (Option Value) := [vS "M", vS "M", vS "M", vS "M"]

/-- The response column of `dfSingleCat`. -/
def ysSingle : List (Option Value) := [vN 1, vN 0, vN 1, vN 0]

/-- Frame whose column `cat1` is entirely missing (empty cross-section
with any response) and whose column `cat2` is well-formed. -/
def dfAbort : DataFrame :=
  ⟨[⟨"cat1", .object, [none, none, none, none]⟩,
    ⟨"cat2", .object, [vS "a", vS "a", vS "b", vS "b"]⟩,
    ⟨"compra", .numeric, [vN 1, vN 0, vN 1, vN 0]⟩]⟩

/-- Frame with two well-formed categorical columns and a binary
response. -/
def dfTwoCats : DataFrame :=
  ⟨[⟨"c1", .object, [vS "a", vS "a", vS "b", vS "b"]⟩,
    ⟨"c2", .object, [vS "x", vS "y", vS "x", vS "y"]⟩,
    ⟨"compra", .numeric, [vN 1, vN 0, vN 1, vN 0]⟩]⟩

/-- The first categorical column of `dfTwoCats`. -/
def xsC1 : List (Option Value) := [vS "a", vS "a", vS "b", vS "b"]

/-- The response column of `dfTwoCats`. -/
def ysC : List (Option Value) := [vN 1, vN 0, vN 1, vN 0]

/-- Zero-row frame with a single numeric column. -/
def dfEmptyNum : DataFrame := ⟨[⟨"x", .numeric, []⟩]⟩

/-- Zero-row frame with an object column (and a numeric one). -/
def dfEmptyObj : DataFrame := ⟨[⟨"x", .numeric, []⟩, ⟨"m", .object, []⟩]⟩

/-- Frame with nulls in two columns, none in the third. -/
def dfNulls : DataFrame :=
  ⟨[⟨"a", .object, [none, vS "x", vS "y", vS "z"]⟩,
    ⟨"b", .numeric, [none, none, none, vN 1]⟩,
    ⟨"c", .numeric, [vN 1, vN 2, vN 3, vN 4]⟩]⟩

/-- A boolean-dtype column, selected by neither side of the dtype split. -/
def colBool : Column := ⟨"flag", .boolean, [vN 1]⟩

/-- Frame mixing numeric, boolean, datetime, categorical and object
columns. -/
def dfMixed : DataFrame :=
  ⟨[⟨"a", .numeric, [vN 1]⟩, colBool, ⟨"d", .datetime, [vN 0]⟩,
    ⟨"k", .categorical false [], [vS "u"]⟩, ⟨"s", .object, [vS "x"]⟩]⟩

/-- Frame with a month column and a numeric response, for the temporal
helper. -/
def dfMonths : DataFrame :=
  ⟨[⟨"Month", .object, [vS "Jan", vS "Feb", vS "???", none]⟩,
    ⟨"PageValues", .numeric, [vN 1, vN 2, vN 3, vN 4]⟩]⟩

/-- The default month order of `analisis_temporal`. -/
def monthOrder : List Value :=
  [.str "Jan", .str "Feb", .str "Mar", .str "Apr", .str "May", .str "Jun",
   .str "Jul", .str "Aug", .str "Sep", .str "Oct", .str "Nov", .str "Dec"]

/-! ### Counting lemmas about crosstabs

The marginal-total facts below all reduce to one counting principle: summing,
over a duplicate-free list `L` covering the keys of `ps`, the number of
elements of `ps` that satisfy `Q` and have key `b`, yields the number of
elements of `ps` satisfying `Q`. -/

lemma sum_map_ite_zero {β : Type} [DecidableEq β] {L : List β} {x : β} (hx : x ∉ L) :
    (L.map (fun b => if x = b then (1 : ℕ) else 0)).sum = 0 := by
  induction L with
  | nil => simp
  | cons b L ih =>
    simp only [List.mem_cons, not_or] at hx
    simp only [List.map_cons, List.sum_cons, if_neg hx.1, ih hx.2]

lemma sum_map_ite_one {β : Type} [DecidableEq β] {L : List β} (hL : L.Nodup) {x : β}
    (hx : x ∈ L) : (L.map (fun b => if x = b then (1 : ℕ) else 0)).sum = 1 := by
  induction L with
  | nil => cases hx
  | cons b L ih =>
    rcases List.mem_cons.mp hx with h | h
    · have hb : x ∉ L := h ▸ (List.nodup_cons.mp hL).1
      simp only [List.map_cons, List.sum_cons, if_pos h, sum_map_ite_zero hb]
    · have hxb : x ≠ b := fun he => (List.nodup_cons.mp hL).1 (he ▸ h)
      simp only [List.map_cons, List.sum_cons, if_neg hxb, ih (List.nodup_cons.mp hL).2 h,
        Nat.zero_add]

lemma sum_map_countP_key {α β : Type} [DecidableEq β] {L : List β} (hL : L.Nodup)
    (key : α → β) (Q : α → Bool) :
    ∀ ps : List α, (∀ p ∈ ps, key p ∈ L) →
      (L.map (fun b => ps.countP (fun p => Q p && decide (key p = b)))).sum = ps.countP Q := by
  intro ps
  induction ps with
  | nil => intro _; simp
  | cons p ps ih =>
    intro hmem
    have hkey : key p ∈ L := hmem p (List.mem_cons_self p ps)
    have hrest : ∀ q ∈ ps, key q ∈ L := fun q hq => hmem q (List.mem_cons_of_mem p hq)
    simp only [List.countP_cons]
    rw [List.sum_map_add, ih hrest]
    congr 1
    cases hq : Q p with
    | false => simp
    | true =>
      simp only [Bool.true_and, decide_eq_true_eq, if_true]
      exact sum_map_ite_one hL hkey

/-- Splitting the pairwise-equality test of a pair into its components. -/
lemma countP_pair_split (ps : List (Value × Value)) (a b : Value) :
    ps.countP (fun p => decide (p = (a, b))) =
      ps.countP (fun p => decide (p.1 = a) && decide (p.2 = b)) := by
  refine List.countP_congr (fun p _ => ?_)
  simp [Prod.ext_iff]

lemma countP_pair_split' (ps : List (Value × Value)) (a b : Value) :
    ps.countP (fun p => decide (p = (a, b))) =
      ps.countP (fun p => decide (p.2 = b) && decide (p.1 = a)) := by
  refine List.countP_congr (fun p _ => ?_)
  simp [Prod.ext_iff, and_comm]

/-- Row marginal: the row of counts for the category value `a` sums to the
number of pairs whose first component is `a`. -/
lemma row_sum_eq_countP (ps : List (Value × Value)) (a : Value) :
    ((ps.map Prod.snd).dedup.map (fun b => ps.countP (fun p => decide (p = (a, b))))).sum =
      ps.countP (fun p => decide (p.1 = a)) := by
  have h := sum_map_countP_key (List.nodup_dedup (ps.map Prod.snd)) Prod.snd
    (fun p => decide (p.1 = a)) ps
    (fun p hp => List.mem_dedup.mpr (List.mem_map_of_mem Prod.snd hp))
  rw [← h]
  exact congrArg List.sum (List.map_congr_left (fun b _ => countP_pair_split ps a b))

/-- Column marginal: the counts for the response value `b` across all
category values sum to the number of pairs whose second component is `b`. -/
lemma col_sum_eq_countP (ps : List (Value × Value)) (b : Value) :
    ((ps.map Prod.fst).dedup.map (fun a => ps.countP (fun p => decide (p = (a, b))))).sum =
      ps.countP (fun p => decide (p.2 = b)) := by
  have h := sum_map_countP_key (List.nodup_dedup (ps.map Prod.fst)) Prod.fst
    (fun p => decide (p.2 = b)) ps
    (fun p hp => List.mem_dedup.mpr (List.mem_map_of_mem Prod.fst hp))
  rw [← h]
  exact congrArg List.sum (List.map_congr_left (fun a _ => countP_pair_split' ps a b))

/-- Summing the per-category totals recovers the number of pairs. -/
lemma sum_countP_fst (ps : List (Value × Value)) :
    ((ps.map Prod.fst).dedup.map (fun a => ps.countP (fun p => decide (p.1 = a)))).sum =
      ps.length := by
  have h := sum_map_countP_key (List.nodup_dedup (ps.map Prod.fst)) Prod.fst
    (fun _ => true) ps
    (fun p hp => List.mem_dedup.mpr (List.mem_map_of_mem Prod.fst hp))
  calc ((ps.map Prod.fst).dedup.map (fun a => ps.countP (fun p => decide (p.1 = a)))).sum
      = ((ps.map Prod.fst).dedup.map
          (fun a => ps.countP (fun p => true && decide (p.1 = a)))).sum := by
        exact congrArg List.sum (List.map_congr_left (fun a _ =>
          List.countP_congr (fun p _ => by simp)))
    _ = ps.countP (fun _ => true) := h
    _ = ps.length := by simp

lemma crosstab_rowLabels (xs ys : List (Option Value)) :
    (crosstab xs ys).rowLabels = ((pairs xs ys).map Prod.fst).dedup := rfl

lemma crosstab_colLabels (xs ys : List (Option Value)) :
    (crosstab xs ys).colLabels = ((pairs xs ys).map Prod.snd).dedup := rfl

lemma crosstab_cells (xs ys : List (Option Value)) :
    (crosstab xs ys).cells =
      ((pairs xs ys).map Prod.fst).dedup.map (fun a =>
        ((pairs xs ys).map Prod.snd).dedup.map (fun b =>
          (pairs xs ys).countP (fun p => decide (p = (a, b))))) := rfl

/-- Every row of the count matrix has the matrix width. -/
lemma length_of_mem_cells {xs ys : List (Option Value)} {r : List ℕ}
    (hr : r ∈ (crosstab xs ys).cells) : r.length = (crosstab xs ys).colLabels.length := by
  rw [crosstab_cells] at hr
  obtain ⟨a, _, rfl⟩ := List.mem_map.mp hr
  simp [crosstab_colLabels]

lemma length_cells (xs ys : List (Option Value)) :
    (crosstab xs ys).cells.length = (crosstab xs ys).rowLabels.length := by
  rw [crosstab_cells, crosstab_rowLabels, List.length_map]

/-- Each row of the matrix sums to the count of pairs carrying its label. -/
lemma sum_of_mem_cells {xs ys : List (Option Value)} {r : List ℕ}
    (hr : r ∈ (crosstab xs ys).cells) :
    ∃ a ∈ (crosstab xs ys).rowLabels,
      r.sum = (pairs xs ys).countP (fun p => decide (p.1 = a)) := by
  rw [crosstab_cells] at hr
  obtain ⟨a, ha, rfl⟩ := List.mem_map.mp hr
  exact ⟨a, ha, row_sum_eq_countP (pairs xs ys) a⟩

/-- Every row of the count matrix of a nonempty cross-section has a positive
sum: its label is observed at least once. -/
lemma row_sum_pos {xs ys : List (Option Value)} {r : List ℕ}
    (hr : r ∈ (crosstab xs ys).cells) : 0 < r.sum := by
  obtain ⟨a, ha, hsum⟩ := sum_of_mem_cells hr
  rw [hsum, List.countP_pos_iff]
  rw [crosstab_rowLabels, List.mem_dedup] at ha
  obtain ⟨p, hp, rfl⟩ := List.mem_map.mp ha
  exact ⟨p, hp, by simp⟩

/-- The grand total of a crosstab is the number of tabulated pairs. -/
lemma grandTotal_eq_length (xs ys : List (Option Value)) :
    grandTotal (crosstab xs ys) = (pairs xs ys).length := by
  rw [grandTotal, crosstab_cells, List.map_map]
  have h : (List.sum ∘ fun a =>
      ((pairs xs ys).map Prod.snd).dedup.map (fun b =>
        (pairs xs ys).countP (fun p => decide (p = (a, b))))) =
      fun a => (pairs xs ys).countP (fun p => decide (p.1 = a)) := by
    funext a
    exact row_sum_eq_countP (pairs xs ys) a
  rw [h, sum_countP_fst]

lemma grandTotal_pos {xs ys : List (Option Value)} (hps : pairs xs ys ≠ []) :
    0 < grandTotal (crosstab xs ys) := by
  rw [grandTotal_eq_length]
  exact List.length_pos.mpr hps

/-- The column marginal at an in-range index is the count of pairs carrying
the column label, hence positive. -/
lemma colTotal_eq_countP (xs ys : List (Option Value)) {j : ℕ}
    (hj : j < (crosstab xs ys).colLabels.length) :
    colTotal (crosstab xs ys) j =
      (pairs xs ys).countP (fun p => decide (p.2 = (crosstab xs ys).colLabels[j])) := by
  rw [colTotal, crosstab_cells, List.map_map]
  have h : ((fun r => r.getD j 0) ∘ fun a =>
      ((pairs xs ys).map Prod.snd).dedup.map (fun b =>
        (pairs xs ys).countP (fun p => decide (p = (a, b))))) =
      fun a => (pairs xs ys).countP
        (fun p => decide (p = (a, (crosstab xs ys).colLabels[j]))) := by
    funext a
    have hj' : j < (((pairs xs ys).map Prod.snd).dedup.map (fun b =>
        (pairs xs ys).countP (fun p => decide (p = (a, b))))).length := by
      rw [List.length_map]
      exact hj
    simp only [Function.comp]
    rw [List.getD_eq_getElem _ _ hj', List.getElem_map]
    rfl
  rw [h]
  exact col_sum_eq_countP (pairs xs ys) ((crosstab xs ys).colLabels[j])

lemma colTotal_pos {xs ys : List (Option Value)} {j : ℕ}
    (hj : j < (crosstab xs ys).colLabels.length) : 0 < colTotal (crosstab xs ys) j := by
  rw [colTotal_eq_countP xs ys hj]
  have hb : (crosstab xs ys).colLabels[j] ∈ (crosstab xs ys).colLabels :=
    List.getElem_mem hj
  generalize hbe : (crosstab xs ys).colLabels[j] = b at hb ⊢
  rw [crosstab_colLabels, List.mem_dedup] at hb
  obtain ⟨p, hp, hpb⟩ := List.mem_map.mp hb
  exact List.countP_pos_iff.mpr ⟨p, hp, by simp [hpb]⟩

/-- Every cell of the expected-frequency table of a nonempty cross-section
is positive (in particular nonzero, so scipy's zero-expected guard cannot
fire on a crosstab). -/
lemma expectedFreq_pos {xs ys : List (Option Value)} (hps : pairs xs ys ≠ [])
    {row : List ℚ} (hrow : row ∈ expectedFreq (crosstab xs ys)) {e : ℚ} (he : e ∈ row) :
    0 < e := by
  rw [expectedFreq] at hrow
  obtain ⟨r, hr, rfl⟩ := List.mem_map.mp hrow
  obtain ⟨j, hj, rfl⟩ := List.mem_map.mp he
  rw [List.mem_range] at hj
  have h1 : 0 < r.sum := row_sum_pos hr
  have h2 : 0 < colTotal (crosstab xs ys) j := colTotal_pos hj
  have h3 : 0 < grandTotal (crosstab xs ys) := grandTotal_pos hps
  have hnum : (0 : ℚ) < ((r.sum * colTotal (crosstab xs ys) j : ℕ) : ℚ) := by
    exact_mod_cast Nat.mul_pos h1 h2
  exact div_pos hnum (by exact_mod_cast h3)

/-! ### Marginal sums of the expected-frequency table -/

lemma range_map_getD {α : Type} (d : α) :
    ∀ r : List α, (List.range r.length).map (fun j => r.getD j d) = r := by
  intro r
  induction r with
  | nil => rfl
  | cons a r ih =>
    rw [List.length_cons, List.range_succ_eq_map, List.map_cons, List.map_map]
    simp only [List.getD_cons_zero]
    have hcomp : ((fun j => (a :: r).getD j d) ∘ Nat.succ) = (fun j => r.getD j d) := by
      funext j
      simp [List.getD_cons_succ]
    rw [hcomp, ih]

lemma grandTotal_cast_ne_zero {xs ys : List (Option Value)} (hps : pairs xs ys ≠ []) :
    (grandTotal (crosstab xs ys) : ℚ) ≠ 0 := by
  have h := grandTotal_pos hps
  exact_mod_cast Nat.pos_iff_ne_zero.mp h

lemma list_sum_swap {α β M : Type} [AddCommMonoid M] (L : List α) (M' : List β)
    (f : α → β → M) :
    (L.map (fun x => (M'.map (f x)).sum)).sum =
      (M'.map (fun y => (L.map (fun x => f x y)).sum)).sum := by
  induction L with
  | nil => simp
  | cons a L ih =>
    simp only [List.map_cons, List.sum_cons, ih, ← List.sum_map_add]

/-- The column marginals sum to the grand total. -/
lemma sum_colTotal (xs ys : List (Option Value)) :
    ((List.range (crosstab xs ys).colLabels.length).map
        (fun j => colTotal (crosstab xs ys) j)).sum = grandTotal (crosstab xs ys) := by
  unfold colTotal
  rw [list_sum_swap]
  rw [grandTotal]
  refine congrArg List.sum (List.map_congr_left (fun r hr => ?_))
  rw [← length_of_mem_cells hr, range_map_getD]

/-- Casting the column-marginal sum to `ℚ`. -/
lemma sum_colTotal_cast (xs ys : List (Option Value)) :
    ((List.range (crosstab xs ys).colLabels.length).map
        (fun j => (colTotal (crosstab xs ys) j : ℚ))).sum = (grandTotal (crosstab xs ys) : ℚ) := by
  rw [← sum_colTotal xs ys, Nat.cast_list_sum, List.map_map]
  rfl

/-- A row of the expected table sums exactly to the matching observed row
total (for an arbitrary row vector, since the column marginals sum to the
grand total). -/
lemma expected_row_sum {xs ys : List (Option Value)} (hps : pairs xs ys ≠ [])
    (r : List ℕ) :
    (((List.range (crosstab xs ys).colLabels.length).map
        (fun j => ((r.sum * colTotal (crosstab xs ys) j : ℕ) : ℚ) /
          (grandTotal (crosstab xs ys) : ℚ))).sum) = (r.sum : ℚ) := by
  have hg : (grandTotal (crosstab xs ys) : ℚ) ≠ 0 := grandTotal_cast_ne_zero hps
  have hstep : (List.range (crosstab xs ys).colLabels.length).map
      (fun j => ((r.sum * colTotal (crosstab xs ys) j : ℕ) : ℚ) /
        (grandTotal (crosstab xs ys) : ℚ)) =
      (List.range (crosstab xs ys).colLabels.length).map
      (fun j => ((r.sum : ℚ) / (grandTotal (crosstab xs ys) : ℚ)) *
        (colTotal (crosstab xs ys) j : ℚ)) := by
    refine List.map_congr_left (fun j _ => ?_)
    push_cast
    ring
  rw [hstep, List.sum_map_mul_left, sum_colTotal_cast, div_mul_cancel₀ _ hg]

/-- A column of the expected table sums exactly to the matching observed
column marginal. -/
lemma expected_col_sum {xs ys : List (Option Value)} (hps : pairs xs ys ≠ [])
    {j : ℕ} (hj : j < (crosstab xs ys).colLabels.length) :
    ((expectedFreq (crosstab xs ys)).map (fun row => row.getD j 0)).sum =
      (colTotal (crosstab xs ys) j : ℚ) := by
  have hg : (grandTotal (crosstab xs ys) : ℚ) ≠ 0 := grandTotal_cast_ne_zero hps
  rw [expectedFreq, List.map_map]
  have hstep : ((fun row => List.getD row j 0) ∘ fun r : List ℕ =>
      (List.range (crosstab xs ys).colLabels.length).map
        (fun j' => ((r.sum * colTotal (crosstab xs ys) j' : ℕ) : ℚ) /
          (grandTotal (crosstab xs ys) : ℚ))) =
      fun r : List ℕ => ((colTotal (crosstab xs ys) j : ℚ) / (grandTotal (crosstab xs ys) : ℚ)) *
        (r.sum : ℚ) := by
    funext (r : List ℕ)
    have hlen : j < ((List.range (crosstab xs ys).colLabels.length).map
        (fun j' => ((r.sum * colTotal (crosstab xs ys) j' : ℕ) : ℚ) /
          (grandTotal (crosstab xs ys) : ℚ))).length := by
      rw [List.length_map, List.length_range]
      exact hj
    simp only [Function.comp]
    rw [List.getD_eq_getElem _ _ hlen, List.getElem_map, List.getElem_range]
    push_cast
    ring
  rw [hstep, List.sum_map_mul_left]
  have hsums : ((crosstab xs ys).cells.map (fun r => (r.sum : ℚ))).sum =
      (grandTotal (crosstab xs ys) : ℚ) := by
    rw [grandTotal, Nat.cast_list_sum, List.map_map]
    rfl
  rw [hsums, div_mul_cancel₀ _ hg]

/-- The expected table's grand total equals the observed grand total. -/
lemma expected_grand_sum {xs ys : List (Option Value)} (hps : pairs xs ys ≠ []) :
    ((expectedFreq (crosstab xs ys)).map List.sum).sum = (grandTotal (crosstab xs ys) : ℚ) := by
  rw [expectedFreq, List.map_map]
  have hstep : (List.sum ∘ fun r =>
      (List.range (crosstab xs ys).colLabels.length).map
        (fun j => ((r.sum * colTotal (crosstab xs ys) j : ℕ) : ℚ) /
          (grandTotal (crosstab xs ys) : ℚ))) =
      fun r : List ℕ => ((r.sum : ℚ) / (grandTotal (crosstab xs ys) : ℚ)) *
        (grandTotal (crosstab xs ys) : ℚ) := by
    funext r
    simp only [Function.comp]
    have h1 : (List.range (crosstab xs ys).colLabels.length).map
        (fun j => ((r.sum * colTotal (crosstab xs ys) j : ℕ) : ℚ) /
          (grandTotal (crosstab xs ys) : ℚ)) =
        (List.range (crosstab xs ys).colLabels.length).map
        (fun j => ((r.sum : ℚ) / (grandTotal (crosstab xs ys) : ℚ)) *
          (colTotal (crosstab xs ys) j : ℚ)) := by
      refine List.map_congr_left (fun j _ => ?_)
      push_cast
      ring
    rw [h1, List.sum_map_mul_left, sum_colTotal_cast]
  have hg : (grandTotal (crosstab xs ys) : ℚ) ≠ 0 := grandTotal_cast_ne_zero hps
  rw [hstep]
  have h2 : ((crosstab xs ys).cells.map (fun r : List ℕ =>
      ((r.sum : ℚ) / (grandTotal (crosstab xs ys) : ℚ)) *
        (grandTotal (crosstab xs ys) : ℚ))).sum =
      ((crosstab xs ys).cells.map (fun r : List ℕ => (r.sum : ℚ))).sum := by
    refine congrArg List.sum (List.map_congr_left (fun r _ => ?_))
    rw [div_mul_cancel₀ _ hg]
  rw [h2, grandTotal, Nat.cast_list_sum, List.map_map]
  rfl

/-! ### Behaviour of the embedded `chi2_contingency` on crosstabs -/

lemma rowLabels_ne_nil {xs ys : List (Option Value)} (hps : pairs xs ys ≠ []) :
    (crosstab xs ys).rowLabels ≠ [] := by
  rw [crosstab_rowLabels]
  simp only [ne_eq, List.dedup_eq_nil, List.map_eq_nil_iff]
  exact hps

lemma colLabels_ne_nil {xs ys : List (Option Value)} (hps : pairs xs ys ≠ []) :
    (crosstab xs ys).colLabels ≠ [] := by
  rw [crosstab_colLabels]
  simp only [ne_eq, List.dedup_eq_nil, List.map_eq_nil_iff]
  exact hps

lemma expectedFreq_no_zero {xs ys : List (Option Value)} (hps : pairs xs ys ≠ []) :
    (expectedFreq (crosstab xs ys)).any (fun r => r.any (fun e => decide (e = 0))) = false := by
  simp only [List.any_eq_false, decide_eq_true_eq]
  intro row hrow
  simp only [List.any_eq_true, decide_eq_true_eq, not_exists, not_and]
  intro e he
  exact ne_of_gt (expectedFreq_pos hps hrow he)

/-- On a nonempty cross-section, the embedded `chi2_contingency` never
raises: it reduces to the degenerate-or-not branch on the degrees of
freedom. -/
lemma chi2_contingency_eq {xs ys : List (Option Value)} (sf : ℚ → Nat → ℚ)
    (hps : pairs xs ys ≠ []) :
    chi2_contingency sf (crosstab xs ys) =
      (if dofOf (crosstab xs ys) = 0 then
        Except.ok { chi2 := 0, p := 1, dof := 0, expected := expectedFreq (crosstab xs ys) }
      else
        Except.ok { chi2 := chi2stat (crosstab xs ys),
                    p := sf (chi2stat (crosstab xs ys)) (dofOf (crosstab xs ys)),
                    dof := dofOf (crosstab xs ys),
                    expected := expectedFreq (crosstab xs ys) }) := by
  have h1 : ¬ ((crosstab xs ys).rowLabels.length * (crosstab xs ys).colLabels.length = 0) := by
    simp only [Nat.mul_eq_zero, List.length_eq_zero, not_or]
    exact ⟨rowLabels_ne_nil hps, colLabels_ne_nil hps⟩
  rw [chi2_contingency, if_neg h1, expectedFreq_no_zero hps]
  simp

lemma chi2_contingency_ok (sf : ℚ → Nat → ℚ) {xs ys : List (Option Value)}
    (hps : pairs xs ys ≠ []) :
    ∃ r, chi2_contingency sf (crosstab xs ys) = Except.ok r ∧
      r.expected = expectedFreq (crosstab xs ys) := by
  rw [chi2_contingency_eq sf hps]
  split
  · exact ⟨_, rfl, rfl⟩
  · exact ⟨_, rfl, rfl⟩

/-- Degenerate case: fewer than 2 distinct values on either axis of a
nonempty crosstab forces `dof = 0`, and the library returns
`chi2 = 0, p = 1` instead of raising. -/
lemma chi2_contingency_degenerate (sf : ℚ → Nat → ℚ) {xs ys : List (Option Value)}
    (hps : pairs xs ys ≠ [])
    (hdeg : (crosstab xs ys).rowLabels.length < 2 ∨ (crosstab xs ys).colLabels.length < 2) :
    chi2_contingency sf (crosstab xs ys) =
      Except.ok { chi2 := 0, p := 1, dof := 0, expected := expectedFreq (crosstab xs ys) } := by
  have hdof : dofOf (crosstab xs ys) = 0 := by
    rw [dofOf]
    rcases hdeg with h | h
    · have : (crosstab xs ys).rowLabels.length - 1 = 0 := by omega
      rw [this, Nat.zero_mul]
    · have : (crosstab xs ys).colLabels.length - 1 = 0 := by omega
      rw [this, Nat.mul_zero]
  rw [chi2_contingency_eq sf hps, if_pos hdof]

/-! ### Behaviour of the analyzer loop -/

/-- One analyzer iteration on a present column pair with a nonempty
cross-section: the banner and the observed table are emitted, then exactly
one of the two verdicts, decided by `p < sig_level`, with the rounded
expected table shown only in the significant branch; no exception
escapes. -/
lemma processColumn_spec (sf : ℚ → Nat → ℚ) (df : DataFrame) (resp : String) (sig : ℚ)
    (c : String) {xs ys : List (Option Value)} (hx : lookupCol df c = some xs)
    (hy : lookupCol df resp = some ys) (hps : pairs xs ys ≠ []) :
    ∃ r, chi2_contingency sf (crosstab xs ys) = Except.ok r ∧
      processColumn sf df resp sig c =
        (if r.p < sig then
          [Event.evaluating c, Event.showCrosstab (crosstab xs ys), Event.sigDiff c r.p,
           Event.showExpectedRounded (roundMatrix r.expected), Event.separator]
        else
          [Event.evaluating c, Event.showCrosstab (crosstab xs ys), Event.noSigDiff c r.p,
           Event.separator], none) := by
  obtain ⟨r, hr, _⟩ := chi2_contingency_ok sf hps
  refine ⟨r, hr, ?_⟩
  rw [processColumn, hx, hy]
  simp only [hr]
  split <;> rfl

/-- The second component of an iteration's result is `none` under the same
conditions (no exception escapes). -/
lemma processColumn_no_error (sf : ℚ → Nat → ℚ) (df : DataFrame) (resp : String) (sig : ℚ)
    (c : String) {xs ys : List (Option Value)} (hx : lookupCol df c = some xs)
    (hy : lookupCol df resp = some ys) (hps : pairs xs ys ≠ []) :
    (processColumn sf df resp sig c).2 = none := by
  obtain ⟨r, _, hpc⟩ := processColumn_spec sf df resp sig c hx hy hps
  rw [hpc]

/-- The evaluation banner of a processed column is always among its
events. -/
lemma processColumn_evaluating (sf : ℚ → Nat → ℚ) (df : DataFrame) (resp : String)
    (sig : ℚ) (c : String) {xs ys : List (Option Value)} (hx : lookupCol df c = some xs)
    (hy : lookupCol df resp = some ys) (hps : pairs xs ys ≠ []) :
    Event.evaluating c ∈ (processColumn sf df resp sig c).1 := by
  obtain ⟨r, _, hpc⟩ := processColumn_spec sf df resp sig c hx hy hps
  rw [hpc]
  split
  · exact List.mem_cons_self _ _
  · exact List.mem_cons_self _ _

/-- One analyzer iteration on a degenerate column (fewer than 2 distinct
values on either crosstab axis, nonempty cross-section): the library's
`dof = 0` path yields `p = 1`, and any significance level ≤ 1 sends the
iteration to the "no significant difference" report. -/
lemma processColumn_degenerate (sf : ℚ → Nat → ℚ) (df : DataFrame) (resp c : String)
    (sig : ℚ) {xs ys : List (Option Value)} (hx : lookupCol df c = some xs)
    (hy : lookupCol df resp = some ys) (hps : pairs xs ys ≠ [])
    (hdeg : (crosstab xs ys).rowLabels.length < 2 ∨ (crosstab xs ys).colLabels.length < 2)
    (hsig : sig ≤ 1) :
    processColumn sf df resp sig c =
      ([Event.evaluating c, Event.showCrosstab (crosstab xs ys),
        Event.noSigDiff c 1, Event.separator], none) := by
  have hchi := chi2_contingency_degenerate sf hps hdeg
  rw [processColumn, hx, hy]
  simp only [hchi]
  rw [if_neg (not_lt.mpr hsig)]

/-- The precondition under which one column's iteration is guaranteed not
to raise: the column and the response both exist and their cross-section is
nonempty. -/
def colOk (df : DataFrame) (resp c : String) : Prop :=
  ∃ xs ys, lookupCol df c = some xs ∧ lookupCol df resp = some ys ∧ pairs xs ys ≠ []

/-- When every listed column satisfies `colOk`, the loop completes without
an exception and its output is the concatenation, in list order, of each
column's own events. -/
lemma detectar_all_ok (sf : ℚ → Nat → ℚ) (df : DataFrame) (resp : String) (sig : ℚ)
    (lista : List String) (h : ∀ c ∈ lista, colOk df resp c) :
    detectar_orden_cat_bina sf df lista resp sig =
      ((lista.map (fun c => (processColumn sf df resp sig c).1)).flatten, none) := by
  induction lista with
  | nil => rfl
  | cons c rest ih =>
    obtain ⟨xs, ys, hx, hy, hps⟩ := h c (List.mem_cons_self c rest)
    obtain ⟨r, hr, hpc⟩ := processColumn_spec sf df resp sig c hx hy hps
    rw [detectar_orden_cat_bina, List.map_cons, List.flatten_cons, hpc,
      ih (fun c' hc' => h c' (List.mem_cons_of_mem c hc'))]

/-- When the loop reaches a column absent from the frame, having processed
a prefix of well-formed columns, it stops with a `KeyError` naming exactly
that column: the events are the prefix columns' reports followed by the
offending column's banner only — no table is built for the offending column
or for any later column. -/
lemma detectar_keyError (sf : ℚ → Nat → ℚ) (df : DataFrame) (resp : String) (sig : ℚ)
    (pre : List String) (c : String) (post : List String)
    (hpre : ∀ c' ∈ pre, colOk df resp c') (hc : lookupCol df c = none) :
    detectar_orden_cat_bina sf df (pre ++ c :: post) resp sig =
      ((pre.map (fun c' => (processColumn sf df resp sig c').1)).flatten ++
        [Event.evaluating c], some (PyError.keyError c)) := by
  induction pre with
  | nil =>
    rw [List.nil_append, detectar_orden_cat_bina, processColumn, hc]
    rfl
  | cons c' rest ih =>
    obtain ⟨xs, ys, hx, hy, hps⟩ := hpre c' (List.mem_cons_self c' rest)
    obtain ⟨r, hr, hpc⟩ := processColumn_spec sf df resp sig c' hx hy hps
    rw [List.cons_append, detectar_orden_cat_bina, List.map_cons, List.flatten_cons,
      List.append_assoc, hpc, ih (fun q hq => hpre q (List.mem_cons_of_mem c' hq))]

/-! ## Claim theorems -/

/-- Claim C1, counterexample.  On a frame whose categorical column has a
single observed value — the spec's own concrete scenario — the analyzer
does not report a cannot-test outcome: it reports "no significant
difference" with `p = 1` (the library's degenerate `dof = 0` path) and
finishes without an exception, so the claimed guard does not exist. -/
theorem C1_counterexample :
    detectar_orden_cat_bina sfW dfSingleCat ["genero"] "compra" (1/20) =
      ([Event.evaluating "genero",
        Event.showCrosstab ⟨[.str "M"], [.num 1, .num 0], [[2, 2]]⟩,
        Event.noSigDiff "genero" 1, Event.separator], none) ∧
    Event.cannotTest "genero" ∉
      (detectar_orden_cat_bina sfW dfSingleCat ["genero"] "compra" (1/20)).1 := by
  have hpc := processColumn_degenerate sfW dfSingleCat "compra" "genero" (1/20)
    (show lookupCol dfSingleCat "genero" = some xsSingle from rfl)
    (show lookupCol dfSingleCat "compra" = some ysSingle from rfl)
    (by decide) (by decide) (by norm_num)
  have hct : crosstab xsSingle ysSingle =
      ⟨[.str "M"], [.num 1, .num 0], [[2, 2]]⟩ := by rfl
  have hd : detectar_orden_cat_bina sfW dfSingleCat ["genero"] "compra" (1/20) =
      ([Event.evaluating "genero",
        Event.showCrosstab ⟨[.str "M"], [.num 1, .num 0], [[2, 2]]⟩,
        Event.noSigDiff "genero" 1, Event.separator], none) := by
    rw [detectar_orden_cat_bina, hpc, hct]
    rfl
  refine ⟨hd, ?_⟩
  rw [hd]
  decide

/-- Claim C1, amended.  For every analyzer iteration on a column that
exists, with an existing response and a nonempty cross-section, in which
either axis of the crosstab has fewer than 2 distinct observed values, the
iteration raises no exception and reports "no significant difference" with
`p = 1` (for any significance level ≤ 1); no cannot-test outcome is ever
emitted. -/
theorem C1_degenerate_reports_p1 (sf : ℚ → Nat → ℚ) (df : DataFrame) (resp c : String)
    (sig : ℚ) {xs ys : List (Option Value)} (hx : lookupCol df c = some xs)
    (hy : lookupCol df resp = some ys) (hps : pairs xs ys ≠ [])
    (hdeg : (crosstab xs ys).rowLabels.length < 2 ∨ (crosstab xs ys).colLabels.length < 2)
    (hsig : sig ≤ 1) :
    processColumn sf df resp sig c =
      ([Event.evaluating c, Event.showCrosstab (crosstab xs ys),
        Event.noSigDiff c 1, Event.separator], none) ∧
    Event.cannotTest c ∉ (processColumn sf df resp sig c).1 := by
  have h1 := processColumn_degenerate sf df resp c sig hx hy hps hdeg hsig
  refine ⟨h1, ?_⟩
  rw [h1]
  simp

/-- Claim C1, witness of the amended theorem at `dfSingleCat`. -/
theorem C1_witness :
    processColumn sfW dfSingleCat "compra" (1/20) "genero" =
      ([Event.evaluating "genero", Event.showCrosstab (crosstab xsSingle ysSingle),
        Event.noSigDiff "genero" 1, Event.separator], none) ∧
    Event.cannotTest "genero" ∉ (processColumn sfW dfSingleCat "compra" (1/20) "genero").1 :=
  C1_degenerate_reports_p1 sfW dfSingleCat "compra" "genero" (1/20)
    (by rfl) (by rfl) (by decide) (by decide) (by norm_num)

/-- Claim C2, counterexample.  A degenerate column whose cross-section is
empty (all its cells missing) makes the library raise, and the exception
aborts the batch: the following column `cat2` is never reported. -/
theorem C2_counterexample :
    detectar_orden_cat_bina sfW dfAbort ["cat1", "cat2"] "compra" (1/20) =
      ([Event.evaluating "cat1", Event.showCrosstab ⟨[], [], []⟩],
        some (PyError.valueError "No data; observed has size 0.")) ∧
    Event.evaluating "cat2" ∉
      (detectar_orden_cat_bina sfW dfAbort ["cat1", "cat2"] "compra" (1/20)).1 := by
  exact ⟨by rfl, by decide⟩

/-- Claim C2, amended.  When every listed column exists and has a nonempty
cross-section with the existing response, the loop processes the columns
independently in the given order — its output is the concatenation of each
column's own events, no exception escapes, and every column is reported
(degenerate single-valued columns included, via their `p = 1` report); an
empty cross-section, however, raises and aborts the batch (see the
counterexample). -/
theorem C2_batch (sf : ℚ → Nat → ℚ) (df : DataFrame) (resp : String) (sig : ℚ)
    (lista : List String) (h : ∀ c ∈ lista, colOk df resp c) :
    detectar_orden_cat_bina sf df lista resp sig =
      ((lista.map (fun c => (processColumn sf df resp sig c).1)).flatten, none) ∧
    ∀ c ∈ lista, Event.evaluating c ∈ (detectar_orden_cat_bina sf df lista resp sig).1 := by
  have hall := detectar_all_ok sf df resp sig lista h
  refine ⟨hall, fun c hc => ?_⟩
  rw [hall]
  obtain ⟨xs, ys, hx, hy, hps⟩ := h c hc
  exact List.mem_flatten.mpr
    ⟨(processColumn sf df resp sig c).1,
      List.mem_map_of_mem (fun c => (processColumn sf df resp sig c).1) hc,
      processColumn_evaluating sf df resp sig c hx hy hps⟩

/-- Claim C2, witness of the amended theorem at `dfTwoCats`. -/
theorem C2_witness :
    detectar_orden_cat_bina sfW dfTwoCats ["c1", "c2"] "compra" (1/20) =
      ((["c1", "c2"].map
          (fun c => (processColumn sfW dfTwoCats "compra" (1/20) c).1)).flatten, none) ∧
    ∀ c ∈ ["c1", "c2"], Event.evaluating c ∈
      (detectar_orden_cat_bina sfW dfTwoCats ["c1", "c2"] "compra" (1/20)).1 :=
  C2_batch sfW dfTwoCats "compra" (1/20) ["c1", "c2"] (by
    intro c hc
    rcases List.mem_cons.mp hc with rfl | hc
    · exact ⟨xsC1, ysC, by rfl, by rfl, by decide⟩
    rcases List.mem_cons.mp hc with rfl | hc
    · exact ⟨[vS "x", vS "y", vS "x", vS "y"], ysC, by rfl, by rfl, by decide⟩
    · cases hc)

/-- Claim C3, counterexample.  With the existing column `c1` listed before
the unknown column `zz`, the call does raise a `KeyError` naming `zz`, but
only after the contingency table of `c1` — another column of the same
call — has already been built and displayed, contradicting the claimed
"before any contingency table is built for other columns". -/
theorem C3_counterexample :
    (detectar_orden_cat_bina sfW dfTwoCats ["c1", "zz"] "compra" (1/20)).2 =
      some (PyError.keyError "zz") ∧
    Event.showCrosstab (crosstab xsC1 ysC) ∈
      (detectar_orden_cat_bina sfW dfTwoCats ["c1", "zz"] "compra" (1/20)).1 := by
  have hx : lookupCol dfTwoCats "c1" = some xsC1 := rfl
  have hy : lookupCol dfTwoCats "compra" = some ysC := rfl
  have hps : pairs xsC1 ysC ≠ [] := by decide
  have hk := detectar_keyError sfW dfTwoCats "compra" (1/20) ["c1"] "zz" []
    (by
      intro c' hc'
      rcases List.mem_cons.mp hc' with rfl | hc'
      · exact ⟨xsC1, ysC, hx, hy, hps⟩
      · cases hc')
    (by rfl)
  rw [show (["c1"] ++ "zz" :: ([] : List String)) = ["c1", "zz"] from rfl] at hk
  rw [hk]
  refine ⟨rfl, ?_⟩
  obtain ⟨r, hr, hpc⟩ := processColumn_spec sfW dfTwoCats "compra" (1/20) "c1" hx hy hps
  simp only [List.map_cons, List.map_nil, List.flatten_cons, List.flatten_nil,
    List.append_nil, hpc]
  split <;> simp

/-- Claim C3, amended.  A column name absent from the schema raises a
`KeyError` identifying exactly that name when the loop reaches it: the
columns listed before it are fully processed (their tables are built and
displayed first), while no table is built for the offending column itself
nor for any column listed after it. -/
theorem C3_keyError_at_position (sf : ℚ → Nat → ℚ) (df : DataFrame) (resp : String)
    (sig : ℚ) (pre : List String) (c : String) (post : List String)
    (hpre : ∀ c' ∈ pre, colOk df resp c') (hc : lookupCol df c = none) :
    detectar_orden_cat_bina sf df (pre ++ c :: post) resp sig =
      ((pre.map (fun c' => (processColumn sf df resp sig c').1)).flatten ++
        [Event.evaluating c], some (PyError.keyError c)) :=
  detectar_keyError sf df resp sig pre c post hpre hc

/-- Claim C3, witness of the amended theorem at `dfTwoCats` with the list
`["c1", "zz", "c2"]`. -/
theorem C3_witness :
    detectar_orden_cat_bina sfW dfTwoCats (["c1"] ++ "zz" :: ["c2"]) "compra" (1/20) =
      ((["c1"].map (fun c' => (processColumn sfW dfTwoCats "compra" (1/20) c').1)).flatten ++
        [Event.evaluating "zz"], some (PyError.keyError "zz")) :=
  C3_keyError_at_position sfW dfTwoCats "compra" (1/20) ["c1"] "zz" ["c2"]
    (by
      intro c' hc'
      rcases List.mem_cons.mp hc' with rfl | hc'
      · exact ⟨xsC1, ysC, by rfl, by rfl, by decide⟩
      · cases hc')
    (by rfl)

/-- Claim C4.  Every analyzer iteration on an existing column pair with a
nonempty cross-section displays the observed contingency table before the
decision and then produces exactly one of the two reports: "significant
difference" together with the rounded expected table when `p` is strictly
below the significance level, and "no significant difference" without the
expected table otherwise. -/
theorem C4_decision_rule (sf : ℚ → Nat → ℚ) (df : DataFrame) (resp : String) (sig : ℚ)
    (c : String) {xs ys : List (Option Value)} (hx : lookupCol df c = some xs)
    (hy : lookupCol df resp = some ys) (hps : pairs xs ys ≠ []) :
    ∃ r, chi2_contingency sf (crosstab xs ys) = Except.ok r ∧
      processColumn sf df resp sig c =
        (if r.p < sig then
          [Event.evaluating c, Event.showCrosstab (crosstab xs ys), Event.sigDiff c r.p,
           Event.showExpectedRounded (roundMatrix r.expected), Event.separator]
        else
          [Event.evaluating c, Event.showCrosstab (crosstab xs ys), Event.noSigDiff c r.p,
           Event.separator], none) :=
  processColumn_spec sf df resp sig c hx hy hps

/-- Claim C4, witness at `dfTwoCats`'s column `c1`. -/
theorem C4_witness :
    ∃ r, chi2_contingency sfW (crosstab xsC1 ysC) = Except.ok r ∧
      processColumn sfW dfTwoCats "compra" (1/20) "c1" =
        (if r.p < 1/20 then
          [Event.evaluating "c1", Event.showCrosstab (crosstab xsC1 ysC),
           Event.sigDiff "c1" r.p,
           Event.showExpectedRounded (roundMatrix r.expected), Event.separator]
        else
          [Event.evaluating "c1", Event.showCrosstab (crosstab xsC1 ysC),
           Event.noSigDiff "c1" r.p, Event.separator], none) :=
  C4_decision_rule sfW dfTwoCats "compra" (1/20) "c1" (by rfl) (by rfl) (by decide)

/-- Claim C5.  For every contingency table with at least 2 distinct values
on each axis, the expected-frequency table's row sums, column sums and
grand total match those of the observed table within tolerance `1e-6`
(they are in fact exactly equal in exact arithmetic), and both grand totals
equal the row count of the cross-section. -/
theorem C5_expected_margins (xs ys : List (Option Value))
    (h2r : 2 ≤ (crosstab xs ys).rowLabels.length)
    (_h2c : 2 ≤ (crosstab xs ys).colLabels.length) :
    (∀ i, i < (crosstab xs ys).cells.length →
      |((expectedFreq (crosstab xs ys)).getD i []).sum -
        (((crosstab xs ys).cells.getD i []).sum : ℚ)| ≤ 1/1000000) ∧
    (∀ j, j < (crosstab xs ys).colLabels.length →
      |((expectedFreq (crosstab xs ys)).map (fun row => row.getD j 0)).sum -
        (colTotal (crosstab xs ys) j : ℚ)| ≤ 1/1000000) ∧
    |((expectedFreq (crosstab xs ys)).map List.sum).sum -
      (grandTotal (crosstab xs ys) : ℚ)| ≤ 1/1000000 ∧
    grandTotal (crosstab xs ys) = (pairs xs ys).length := by
  have hps : pairs xs ys ≠ [] := by
    intro hnil
    have : (crosstab xs ys).rowLabels = [] := by
      rw [crosstab_rowLabels, hnil]
      rfl
    rw [this] at h2r
    simp at h2r
  refine ⟨?_, ?_, ?_, grandTotal_eq_length xs ys⟩
  · intro i hi
    have hrow : (expectedFreq (crosstab xs ys)).getD i [] =
        (List.range (crosstab xs ys).colLabels.length).map
          (fun j => ((((crosstab xs ys).cells.getD i []).sum * colTotal (crosstab xs ys) j : ℕ) : ℚ) /
            (grandTotal (crosstab xs ys) : ℚ)) := by
      rw [expectedFreq, List.getD_eq_getElem?_getD, List.getElem?_map,
        List.getElem?_eq_getElem hi, List.getD_eq_getElem _ _ hi]
      rfl
    rw [hrow, expected_row_sum hps ((crosstab xs ys).cells.getD i [])]
    simp
  · intro j hj
    rw [expected_col_sum hps hj]
    simp
  · rw [expected_grand_sum hps]
    simp

/-- Claim C5, witness at a 2×2 crosstab. -/
theorem C5_witness :
    (∀ i, i < (crosstab xsC1 ysC).cells.length →
      |((expectedFreq (crosstab xsC1 ysC)).getD i []).sum -
        (((crosstab xsC1 ysC).cells.getD i []).sum : ℚ)| ≤ 1/1000000) ∧
    (∀ j, j < (crosstab xsC1 ysC).colLabels.length →
      |((expectedFreq (crosstab xsC1 ysC)).map (fun row => row.getD j 0)).sum -
        (colTotal (crosstab xsC1 ysC) j : ℚ)| ≤ 1/1000000) ∧
    |((expectedFreq (crosstab xsC1 ysC)).map List.sum).sum -
      (grandTotal (crosstab xsC1 ysC) : ℚ)| ≤ 1/1000000 ∧
    grandTotal (crosstab xsC1 ysC) = (pairs xsC1 ysC).length :=
  C5_expected_margins xsC1 ysC (by decide) (by decide)

/-- Claim C9.  The crosstab tabulates exactly the rows in which both the
categorical and the response cell are present: its grand total is the
number of such rows (not the dataset's row count). -/
theorem C9_missing_rows_excluded (xs ys : List (Option Value)) :
    grandTotal (crosstab xs ys) = (pairs xs ys).length ∧
    (pairs xs ys).length = (xs.zip ys).countP (fun p => p.1.isSome && p.2.isSome) := by
  refine ⟨grandTotal_eq_length xs ys, ?_⟩
  rw [pairs]
  induction xs.zip ys with
  | nil => rfl
  | cons p l ih =>
    rcases p with ⟨(_ | a), (_ | b)⟩ <;>
      simp [List.filterMap_cons, List.countP_cons, ih]

/-- Claim C6, counterexample.  A zero-row dataset whose only column is
numeric makes the profiler raise (`describe(include="O")` finds no object
column to summarize, for any row count), so the call does not complete
with zero-filled statistics. -/
theorem C6_counterexample :
    nRows dfEmptyNum = 0 ∧
    exploracion_datos dfEmptyNum true =
      Except.error (PyError.valueError "No objects to concatenate") := by
  exact ⟨rfl, rfl⟩

/-- Claim C6, amended.  A zero-row dataset that has at least one
object-typed column (so that the categorical describe, which fails on
object-less frames regardless of row count, can run) is profiled without
faulting, reporting zero rows, zero duplicates and an empty null
report. -/
theorem C6_empty_profile (df : DataFrame) (b : Bool)
    (hempty : ∀ c ∈ df.cols, c.values = [])
    (hobj : ∃ c ∈ df.cols, c.dtype = Dtype.object) :
    ∃ r, exploracion_datos df b = Except.ok r ∧
      r.filas = 0 ∧ r.duplicados = 0 ∧ r.nulos = [] := by
  obtain ⟨co, hco, hcd⟩ := hobj
  have hcols : df.cols ≠ [] := List.ne_nil_of_mem hco
  have hfilas : nRows df = 0 := by
    cases hdf : df.cols with
    | nil => simp [nRows, hdf]
    | cons c tl =>
      have hcv : c.values = [] := hempty c (by rw [hdf]; exact List.mem_cons_self c tl)
      simp [nRows, hdf, hcv]
  have hdups : duplicatedCount df = 0 := by
    simp [duplicatedCount, hfilas]
  have hnulos : nullReport df = [] := by
    have hfilter : df.cols.filter (fun c => decide (0 < nullCount c)) = [] := by
      rw [List.filter_eq_nil_iff]
      intro c hc
      simp [nullCount, hempty c hc]
    rw [nullReport, hfilter]
    simp
  have hdn : ∃ dn, describeDefault df = Except.ok dn := by
    rw [describeDefault, if_neg (by simp [List.isEmpty_iff, hcols])]
    exact ⟨_, rfl⟩
  have hdcmem : co ∈ objectCols df :=
    List.mem_filter.mpr ⟨hco, by simp [hcd]⟩
  have hdc : ∃ dc, describeObject df = Except.ok dc := by
    rw [describeObject]
    rw [if_neg (by simp [List.isEmpty_iff]; exact List.ne_nil_of_mem hdcmem)]
    exact ⟨_, rfl⟩
  obtain ⟨dn, hdn⟩ := hdn
  obtain ⟨dc, hdc⟩ := hdc
  rw [exploracion_datos, hdn, hdc]
  exact ⟨_, rfl, hfilas, hdups, hnulos⟩

/-- Claim C6, witness of the amended theorem at a zero-row frame with an
object column. -/
theorem C6_witness :
    ∃ r, exploracion_datos dfEmptyObj true = Except.ok r ∧
      r.filas = 0 ∧ r.duplicados = 0 ∧ r.nulos = [] :=
  C6_empty_profile dfEmptyObj true (by decide) ⟨⟨"m", .object, []⟩, by decide, rfl⟩

/-- Claim C7.  The profiler's null report lists exactly the columns with at
least one missing cell — columns without nulls never appear — each with its
percentage of missing rows, and the entries are sorted in descending order
of that percentage. -/
theorem C7_null_report (df : DataFrame) (hnames : (df.cols.map Column.name).Nodup) :
    (∀ c ∈ df.cols, 0 < nullCount c →
      (c.name, ((nullCount c : ℚ) / (nRows df : ℚ)) * 100) ∈ nullReport df) ∧
    (∀ e ∈ nullReport df, ∃ c ∈ df.cols, 0 < nullCount c ∧
      e = (c.name, ((nullCount c : ℚ) / (nRows df : ℚ)) * 100)) ∧
    (∀ c ∈ df.cols, nullCount c = 0 → ∀ e ∈ nullReport df, e.1 ≠ c.name) ∧
    (nullReport df).Pairwise (fun a b => b.2 ≤ a.2) := by
  have hperm := List.mergeSort_perm
    ((df.cols.filter (fun c => 0 < nullCount c)).map
      (fun c => (c.name, ((nullCount c : ℚ) / (nRows df : ℚ)) * 100)))
    (fun a b => decide (b.2 ≤ a.2))
  have hmem2 : ∀ e ∈ nullReport df, ∃ c ∈ df.cols, 0 < nullCount c ∧
      e = (c.name, ((nullCount c : ℚ) / (nRows df : ℚ)) * 100) := by
    intro e he
    rw [nullReport] at he
    have := hperm.mem_iff.mp he
    obtain ⟨c, hc, rfl⟩ := List.mem_map.mp this
    obtain ⟨hcmem, hcpos⟩ := List.mem_filter.mp hc
    exact ⟨c, hcmem, by simpa using hcpos, rfl⟩
  refine ⟨?_, hmem2, ?_, ?_⟩
  · intro c hc h0
    rw [nullReport]
    refine hperm.mem_iff.mpr ?_
    exact List.mem_map.mpr ⟨c, List.mem_filter.mpr ⟨hc, by simpa using h0⟩, rfl⟩
  · intro c hc h0 e he heq
    obtain ⟨c', hc', hpos', he'⟩ := hmem2 e he
    have hcc : c' = c := by
      refine List.inj_on_of_nodup_map hnames hc' hc ?_
      rw [he'] at heq
      exact heq
    rw [hcc, h0] at hpos'
    exact lt_irrefl 0 hpos'
  · have htrans : ∀ a b c : String × ℚ, (decide (b.2 ≤ a.2)) = true →
        (decide (c.2 ≤ b.2)) = true → (decide (c.2 ≤ a.2)) = true := by
      intro a b c h1 h2
      rw [decide_eq_true_eq] at h1 h2 ⊢
      exact le_trans h2 h1
    have htotal : ∀ a b : String × ℚ,
        ((decide (b.2 ≤ a.2)) || (decide (a.2 ≤ b.2))) = true := by
      intro a b
      rcases le_total b.2 a.2 with h | h <;> simp [h]
    have hsorted := List.sorted_mergeSort htrans htotal
      ((df.cols.filter (fun c => 0 < nullCount c)).map
        (fun c => (c.name, ((nullCount c : ℚ) / (nRows df : ℚ)) * 100)))
    rw [nullReport]
    exact hsorted.imp (fun h => by rwa [decide_eq_true_eq] at h)

/-- Claim C7, witness: the null report of `dfNulls` is sorted descending
by percentage. -/
theorem C7_witness : (nullReport dfNulls).Pairwise (fun a b => b.2 ≤ a.2) :=
  (C7_null_report dfNulls (by decide)).2.2.2

/-- Claim C8.  `analisis_temporal` replaces the named temporal column of
the caller's frame, in place, by an ordered categorical column restricted
to the supplied order list: present values outside the list (and existing
missing cells) become missing, present values inside the list survive, and
every other column is left unchanged. -/
theorem C8_temporal_mutation (df : DataFrame) (t : String) (order : List Value)
    (h : df.cols.any (fun c => c.name == t) = true) :
    ∃ df', analisis_temporal df t order = Except.ok df' ∧
      df'.cols = df.cols.map (fun c =>
        if c.name == t then
          { name := c.name, dtype := Dtype.categorical true order,
            values := c.values.map (toCategorical order) }
        else c) ∧
      (∀ x : Value, x ∉ order → toCategorical order (some x) = none) ∧
      (∀ x : Value, x ∈ order → toCategorical order (some x) = some x) ∧
      toCategorical order none = none ∧
      (∀ c ∈ df.cols, c.name ≠ t → c ∈ df'.cols) := by
  refine ⟨⟨df.cols.map (fun c =>
      if c.name == t then
        { name := c.name, dtype := Dtype.categorical true order,
          values := c.values.map (toCategorical order) }
      else c)⟩, ?_, rfl, ?_, ?_, rfl, ?_⟩
  · rw [analisis_temporal, if_pos h]
  · intro x hx
    simp [toCategorical, hx]
  · intro x hx
    simp [toCategorical, hx]
  · intro c hc hne
    refine List.mem_map.mpr ⟨c, hc, ?_⟩
    simp [beq_iff_eq, hne]

/-- Claim C8, witness at `dfMonths` with the default month order. -/
theorem C8_witness :
    ∃ df', analisis_temporal dfMonths "Month" monthOrder = Except.ok df' ∧
      df'.cols = dfMonths.cols.map (fun c =>
        if c.name == "Month" then
          { name := c.name, dtype := Dtype.categorical true monthOrder,
            values := c.values.map (toCategorical monthOrder) }
        else c) ∧
      (∀ x : Value, x ∉ monthOrder → toCategorical monthOrder (some x) = none) ∧
      (∀ x : Value, x ∈ monthOrder → toCategorical monthOrder (some x) = some x) ∧
      toCategorical monthOrder none = none ∧
      (∀ c ∈ dfMonths.cols, c.name ≠ "Month" → c ∈ df'.cols) :=
  C8_temporal_mutation dfMonths "Month" monthOrder (by decide)

/-- Claim C10.  `separar_dataframes` returns the numeric-dtype columns and
the object-dtype columns, each in frame order (a sublist of the frame's
columns); a column of any other dtype — boolean, datetime, categorical —
appears in neither part. -/
theorem C10_dtype_split (df : DataFrame) :
    (∀ c, c ∈ (separar_dataframes df).1.cols ↔ c ∈ df.cols ∧ c.dtype = Dtype.numeric) ∧
    (∀ c, c ∈ (separar_dataframes df).2.cols ↔ c ∈ df.cols ∧ c.dtype = Dtype.object) ∧
    (separar_dataframes df).1.cols.Sublist df.cols ∧
    (separar_dataframes df).2.cols.Sublist df.cols ∧
    (∀ c ∈ df.cols, c.dtype ≠ Dtype.numeric → c.dtype ≠ Dtype.object →
      c ∉ (separar_dataframes df).1.cols ∧ c ∉ (separar_dataframes df).2.cols) := by
  have h1 : ∀ c, c ∈ (separar_dataframes df).1.cols ↔
      c ∈ df.cols ∧ c.dtype = Dtype.numeric := by
    intro c
    constructor
    · intro hm
      obtain ⟨hmem, hb⟩ := List.mem_filter.mp hm
      exact ⟨hmem, by simpa [beq_iff_eq] using hb⟩
    · rintro ⟨hmem, hd⟩
      exact List.mem_filter.mpr ⟨hmem, by simp [hd]⟩
  have h2 : ∀ c, c ∈ (separar_dataframes df).2.cols ↔
      c ∈ df.cols ∧ c.dtype = Dtype.object := by
    intro c
    constructor
    · intro hm
      obtain ⟨hmem, hb⟩ := List.mem_filter.mp hm
      exact ⟨hmem, by simpa [beq_iff_eq] using hb⟩
    · rintro ⟨hmem, hd⟩
      exact List.mem_filter.mpr ⟨hmem, by simp [hd]⟩
  refine ⟨h1, h2, List.filter_sublist _, List.filter_sublist _, ?_⟩
  intro c hc hn ho
  constructor
  · intro hmem
    exact hn ((h1 c).mp hmem).2
  · intro hmem
    exact ho ((h2 c).mp hmem).2

/-- Claim C10, witness: the boolean column of `dfMixed` lands in neither
part of the split. -/
theorem C10_witness :
    colBool ∉ (separar_dataframes dfMixed).1.cols ∧
    colBool ∉ (separar_dataframes dfMixed).2.cols :=
  (C10_dtype_split dfMixed).2.2.2.2 colBool (by decide) (by decide) (by decide)

end EDA
